import Mathlib

/-!
# Verification of the hybrid conversational memory engine (`pkg/agentgo/memory`)

This file shallowly embeds the hybrid two-tier memory engine of the
repository (`HybridMemory` in the `memory` package: construction,
message ingestion with tiering migration, clearing, sizing, and hybrid
search) and proves the specification claims about it.

Conventions of the embedding:

* Go `float64` scores and weights are modelled as `Rat` (exact rational
  arithmetic); the algorithms only compare, add, multiply and divide
  scores, so their structure is preserved.
* The external collaborators (the vector index and the embedding
  function, which the repository treats as interfaces) are modelled by
  an explicit environment of oracles: whether an embedding call
  succeeds and with which vector, whether a `Get`-by-id lookup call
  succeeds, whether a batched write succeeds, and what a long-term
  text query returns (`none` modelling a query error).
* The long-term tier's observable contents are modelled as the list of
  documents written to it, in write order.
-/

namespace AgentGo

/-- Modelled from the spec: the `types` package is not under `src/`.
Per the data model, a role is "one of a closed set:
system/user/assistant/tool". -/
inductive Role where
  | system
  | user
  | assistant
  | tool
deriving DecidableEq, Repr

/-- Modelled from the spec: the `types` package is not under `src/`.
A `Message` is "an immutable unit of conversation: identity (string,
unique within a tenant), role, textual content, and an opaque metadata
bag". -/
structure Message where
  id : String
  role : Role
  content : String
  metadata : List (String × String) := []
deriving DecidableEq, Repr

/-- A document written to the long-term vector tier: the message id and
content, its embedding, and the metadata recorded by `moveToLongTerm`
(owning tenant and original role). -/
structure Document where
  id : String
  content : String
  embedding : List Rat
  userId : String
  role : Role
deriving DecidableEq, Repr

/-- `strings.Fields`: whitespace-separated tokens, with no empty
tokens. Written by structural recursion over the character list, with
an accumulator holding the (reversed) current token. -/
def fieldsAux : List Char → List Char → List String
  | acc, [] => if acc = [] then [] else [String.mk acc.reverse]
  | acc, c :: cs =>
    if c.isWhitespace then
      if acc = [] then fieldsAux [] cs
      else String.mk acc.reverse :: fieldsAux [] cs
    else fieldsAux (c :: acc) cs

/-- `strings.Fields s`: the whitespace-separated tokens of `s`. -/
def stringFields (s : String) : List String := fieldsAux [] s.data

/-- `strings.ToLower`, character by character. -/
def strLower (s : String) : String := String.mk (s.data.map Char.toLower)

/-- `calculateTextSimilarity` from `memory/hybrid.go`: the fraction of
the query's tokens that occur among the text's tokens (the text's
tokens collected into a set, so duplicates count once), `0` when the
query has no tokens. -/
def calculateTextSimilarity (query text : String) : Rat :=
  let queryWords := stringFields query
  if queryWords.length = 0 then 0
  else
    let textWords := stringFields text
    let matchCount := queryWords.countP (fun qw => textWords.contains qw)
    (matchCount : Rat) / (queryWords.length : Rat)

/-- The word-overlap ratio exactly as the spec words it: the number of
query tokens that occur among the text's tokens, divided by the number
of query tokens; `0` for a tokenless query. Stated separately from
`calculateTextSimilarity` so that the two can be compared. -/
def specWordOverlapRatio (query text : String) : Rat :=
  let queryWords := stringFields query
  let textWords := stringFields text
  if queryWords.length = 0 then 0
  else ((queryWords.filter (fun qw => textWords.contains qw)).length : Rat)
      / (queryWords.length : Rat)

theorem calculateTextSimilarity_eq_spec (query text : String) :
    calculateTextSimilarity query text = specWordOverlapRatio query text := by
  unfold calculateTextSimilarity specWordOverlapRatio
  by_cases h : (stringFields query).length = 0
  · simp [h]
  · simp only [h, if_neg h, List.countP_eq_length_filter]

/-- One hit returned by the external vector index's `Query` call: id,
content, similarity score, and the `"role"` metadata entry when it is
present and parses as a role. -/
structure VdbResult where
  id : String
  content : String
  score : Rat
  roleMeta : Option Role
deriving DecidableEq, Repr

/-- The environment of external collaborators (vector index and
embedding function, which the engine only sees through interfaces):
whether `EmbedSingle` succeeds on a content and with which vector,
whether the `Get`-by-id existence lookup call succeeds, whether the
batched long-term `Add` write succeeds, and what the long-term `Query`
returns for a (query, limit, tenant) triple (`none` modelling a query
error). -/
structure Env where
  embed : String → Option (List Rat)
  getOk : String → Bool
  addOk : Bool
  ltQuery : String → Int → String → Option (List VdbResult)

/-- `HybridMemoryConfig` from `memory/hybrid.go`. The two interface
fields (`VectorDB`, `Embedder`) are modelled by their presence only
(`Option Unit`); their behavior lives in `Env`. -/
structure HybridMemoryConfig where
  MaxShortTermMessages : Int := 0
  LongTermThreshold : Int := 0
  VectorDB : Option Unit := none
  Embedder : Option Unit := none
  CollectionName : String := ""
  DefaultVectorWeight : Rat := 0
  DefaultTextWeight : Rat := 0
  DefaultMinScore : Rat := 0
deriving DecidableEq, Repr

/-- The observable state of a `HybridMemory` instance: per-tenant
short-term buckets, the documents written to the long-term tier (in
write order), and the configuration after defaults. -/
structure HybridMemory where
  shortTerm : String → List Message
  longTerm : List Document
  config : HybridMemoryConfig

/-- Modelled from the spec: the Short-Term Store (`InMemory`) is not
under `src/`. Per its contract, `Append(tenant, message)` "inserts at
the end of that tenant's sequence, unconditionally". -/
def InMemoryAdd (buckets : String → List Message) (msg : Message)
    (uid : String) : String → List Message :=
  fun u => if u = uid then buckets u ++ [msg] else buckets u

/-- `validateConfig` from `memory/hybrid.go`: the vector index and the
embedding function are required. -/
def validateConfig (config : HybridMemoryConfig) : Option String :=
  if config.VectorDB = none then some "VectorDB is required"
  else if config.Embedder = none then some "Embedder is required"
  else none

/-- The defaults block of `NewHybridMemory`. -/
def applyConfigDefaults (config : HybridMemoryConfig) : HybridMemoryConfig :=
  let c1 := if config.MaxShortTermMessages ≤ 0 then
    { config with MaxShortTermMessages := 100 } else config
  let c2 := if c1.DefaultVectorWeight ≤ 0 then
    { c1 with DefaultVectorWeight := 7/10 } else c1
  let c3 := if c2.DefaultTextWeight ≤ 0 then
    { c2 with DefaultTextWeight := 3/10 } else c2
  let c4 := if c3.DefaultMinScore ≤ 0 then
    { c3 with DefaultMinScore := 1/10 } else c3
  if c4.CollectionName = "" then
    { c4 with CollectionName := "agent_memory" } else c4

/-- `NewHybridMemory`: validate, apply defaults, and return a fresh
instance (the `CreateCollection` call's error is ignored by the code,
so it cannot fail construction). -/
def NewHybridMemory (config : HybridMemoryConfig) :
    Except String HybridMemory :=
  match validateConfig config with
  | some e => .error ("invalid hybrid memory config: " ++ e)
  | none =>
    .ok { shortTerm := fun _ => [],
          longTerm := [],
          config := applyConfigDefaults config }

/-- Whether a document with the given id is already in the long-term
tier (what the `Get`-by-id existence check observes when it
succeeds). -/
def containsId (longTerm : List Document) (id : String) : Bool :=
  longTerm.any (fun d => d.id == id)

/-- The candidate selection of `moveToLongTerm`: the oldest
`count - threshold` messages, system-role messages excluded. -/
def migrationCandidates (threshold : Int) (allMessages : List Message) :
    List Message :=
  (allMessages.take (allMessages.length - threshold.toNat)).filter
    (fun msg => !(msg.role == Role.system))

/-- The batch-building loop of `moveToLongTerm`: skip a candidate when
the existence lookup succeeds and finds it, or when embedding fails;
otherwise append its document to the batch. -/
def buildDocuments (env : Env) (uid : String) (longTerm : List Document)
    (toMove : List Message) : List Document :=
  toMove.filterMap (fun msg =>
    if env.getOk msg.id && containsId longTerm msg.id then none
    else
      match env.embed msg.content with
      | none => none
      | some e => some { id := msg.id, content := msg.content,
                         embedding := e, userId := uid, role := msg.role })

/-- `moveToLongTerm` from `memory/hybrid.go`, as the long-term tier's
state transformer (the short-term buffer is not touched: migration is
additive replication). Only called with a positive threshold. -/
def moveToLongTerm (env : Env) (threshold : Int) (uid : String)
    (allMessages : List Message) (longTerm : List Document) :
    List Document :=
  if (allMessages.length : Int) ≤ threshold then longTerm
  else
    let toMove := migrationCandidates threshold allMessages
    if toMove.isEmpty then longTerm
    else
      let documents := buildDocuments env uid longTerm toMove
      if documents.isEmpty then longTerm
      else if env.addOk then longTerm ++ documents else longTerm

/-- `HybridMemory.Add`: append to the tenant's short-term bucket, then
run the tiering policy when `LongTermThreshold > 0`. -/
def HybridMemory.Add (m : HybridMemory) (env : Env) (msg : Message)
    (uid : String) : HybridMemory :=
  let shortTerm := InMemoryAdd m.shortTerm msg uid
  if 0 < m.config.LongTermThreshold then
    { m with shortTerm := shortTerm,
             longTerm := moveToLongTerm env m.config.LongTermThreshold uid
               (shortTerm uid) m.longTerm }
  else { m with shortTerm := shortTerm }

/-- `HybridMemory.Clear`: clears the tenant's short-term bucket only;
the code skips long-term deletion (delete-by-filter unsupported). -/
def HybridMemory.Clear (m : HybridMemory) (uid : String) : HybridMemory :=
  { m with shortTerm := fun u => if u = uid then [] else m.shortTerm u }

/-- `HybridMemory.Size`: the short-term count for the tenant. -/
def HybridMemory.Size (m : HybridMemory) (uid : String) : Int :=
  ((m.shortTerm uid).length : Int)

/-- `HybridMemory.GetMessages`: the tenant's short-term bucket. -/
def HybridMemory.GetMessages (m : HybridMemory) (uid : String) :
    List Message :=
  m.shortTerm uid

/-- `SearchOptions` from `memory/hybrid.go`. -/
structure SearchOptions where
  Limit : Int := 0
  MinScore : Rat := 0
  VectorWeight : Rat := 0
  TextWeight : Rat := 0
  FilterByRole : List Role := []
  IncludeRecent : Bool := false
  RecentCount : Int := 0
deriving DecidableEq, Repr

/-- A search result: source message, combined score, and the two
component scores, with a provenance tag. -/
structure SearchResult where
  message : Message
  score : Rat
  vectorScore : Rat
  textScore : Rat
  source : String
deriving DecidableEq, Repr

/-- The defaults block of `SearchWithOptions`: limit defaults to 5
when non-positive, weights to the engine defaults when non-positive,
and the minimum score to the engine default when negative. -/
def resolveOptionDefaults (cfg : HybridMemoryConfig)
    (options : SearchOptions) : SearchOptions :=
  let o1 := if options.Limit ≤ 0 then { options with Limit := 5 } else options
  let o2 := if o1.VectorWeight ≤ 0 then
    { o1 with VectorWeight := cfg.DefaultVectorWeight } else o1
  let o3 := if o2.TextWeight ≤ 0 then
    { o2 with TextWeight := cfg.DefaultTextWeight } else o2
  if o3.MinScore < 0 then { o3 with MinScore := cfg.DefaultMinScore } else o3

/-- The weight-normalization block of `SearchWithOptions`: when the
weights have a positive sum, scale them so they sum to 1. -/
def normalizeWeights (options : SearchOptions) : SearchOptions :=
  let totalWeight := options.VectorWeight + options.TextWeight
  if 0 < totalWeight then
    { options with VectorWeight := options.VectorWeight / totalWeight,
                   TextWeight := options.TextWeight / totalWeight }
  else options

/-- The options actually used by the search pipeline. -/
def effectiveOptions (cfg : HybridMemoryConfig) (options : SearchOptions) :
    SearchOptions :=
  normalizeWeights (resolveOptionDefaults cfg options)

/-- `searchShortTerm`: the lexical pass over the tenant's short-term
messages; keeps the messages with positive word-overlap score. -/
def searchShortTerm (m : HybridMemory) (query uid : String)
    (options : SearchOptions) : List SearchResult :=
  (m.shortTerm uid).filterMap (fun msg =>
    let textScore := calculateTextSimilarity (strLower query)
      (strLower msg.content)
    if 0 < textScore then
      some { message := msg, score := textScore * options.TextWeight,
             vectorScore := 0, textScore := textScore,
             source := "short_term" }
    else none)

/-- `searchLongTerm`: query the vector index for `2 × limit`
candidates filtered by tenant, and reconstruct a message from each hit
(role defaulting to assistant); `none` when the query call errors. -/
def searchLongTerm (env : Env) (query uid : String)
    (options : SearchOptions) : Option (List SearchResult) :=
  match env.ltQuery query (options.Limit * 2) uid with
  | none => none
  | some vectorResults =>
    some (vectorResults.map (fun vr =>
      { message := { id := vr.id, content := vr.content,
                     role := vr.roleMeta.getD Role.assistant },
        score := vr.score * options.VectorWeight,
        vectorScore := vr.score, textScore := 0,
        source := "long_term" }))

/-- Lookup of an id in the result map (what the Go map read does). -/
def lookupId : List (String × SearchResult) → String → Option SearchResult
  | [], _ => none
  | p :: ps, id => if p.1 = id then some p.2 else lookupId ps id

/-- The result map of `SearchWithOptions`, keyed by message id. The Go
code uses a hash map; the model keeps the entries in insertion order
(the spec's recommended determinization), which no claim's property
depends on. Short-term insertion: first writer for an id wins. -/
def insertShort (rm : List (String × SearchResult)) (r : SearchResult) :
    List (String × SearchResult) :=
  if (lookupId rm r.message.id).isSome then rm
  else rm ++ [(r.message.id, r)]

/-- The per-entry merge of a long-term result into an existing entry:
the vector score and the combined score are updated only when the
long-term vector score is strictly greater. -/
def mergeEntry (textWeight vectorWeight : Rat) (existing r : SearchResult) :
    SearchResult :=
  if existing.vectorScore < r.vectorScore then
    { existing with
        vectorScore := r.vectorScore,
        score := existing.textScore * textWeight
          + r.vectorScore * vectorWeight }
  else existing

/-- Merging one long-term result into the result map: update the
existing entry for its id, or insert it as a new entry. -/
def mergeLong (textWeight vectorWeight : Rat)
    (rm : List (String × SearchResult)) (r : SearchResult) :
    List (String × SearchResult) :=
  if (lookupId rm r.message.id).isSome then
    rm.map (fun p =>
      if p.1 = r.message.id then (p.1, mergeEntry textWeight vectorWeight p.2 r)
      else p)
  else rm ++ [(r.message.id, r)]

/-- Whether a result passes the role allow-list (an empty list allows
everything). -/
def passesRoleFilter (roles : List Role) (r : SearchResult) : Bool :=
  roles.isEmpty || roles.contains r.message.role

/-- The filter step of `SearchWithOptions`: drop entries below the
minimum score, and apply the role allow-list. -/
def filterResults (options : SearchOptions)
    (rm : List (String × SearchResult)) : List SearchResult :=
  (rm.map Prod.snd).filter (fun r =>
    decide (options.MinScore ≤ r.score) && passesRoleFilter options.FilterByRole r)

/-- Insert a result into a list sorted by non-increasing combined
score, before the first strictly smaller entry. -/
def insertDesc (r : SearchResult) : List SearchResult → List SearchResult
  | [] => [r]
  | x :: xs => if x.score < r.score then r :: x :: xs else x :: insertDesc r xs

/-- The sort step of `SearchWithOptions`: descending by combined
score. The Go code uses an unstable `sort.Slice`; the model's
insertion sort realizes the same contract (sorted permutation), and no
claim depends on the order of equal scores. -/
def sortByScoreDesc (l : List SearchResult) : List SearchResult :=
  l.foldr insertDesc []

/-- The truncation step of `SearchWithOptions`. -/
def truncateResults (lim : Int) (l : List SearchResult) : List SearchResult :=
  if lim < (l.length : Int) then l.take lim.toNat else l

/-- `SearchWithOptions` from `memory/hybrid.go`: resolve options,
run the lexical and vector passes, merge by message id, filter, sort
descending, truncate. -/
def HybridMemory.SearchWithOptions (m : HybridMemory) (env : Env)
    (query : String) (options₀ : SearchOptions) (uid : String) :
    List SearchResult :=
  let options := effectiveOptions m.config options₀
  let rm1 := (searchShortTerm m query uid options).foldl insertShort []
  let rm2 := match searchLongTerm env query uid options with
    | none => rm1
    | some longTermResults =>
      longTermResults.foldl (mergeLong options.TextWeight options.VectorWeight) rm1
  truncateResults options.Limit (sortByScoreDesc (filterResults options rm2))

/-- The Go `SearchWithOptions` returns `(results, nil)` on every path;
this wrapper makes the always-`ok` error contract explicit. -/
def HybridMemory.SearchWithOptionsE (m : HybridMemory) (env : Env)
    (query : String) (options : SearchOptions) (uid : String) :
    Except String (List SearchResult) :=
  Except.ok (m.SearchWithOptions env query options uid)

/-- `Search`: sugar for `SearchWithOptions` with the engine-default
weights and minimum score. -/
def HybridMemory.Search (m : HybridMemory) (env : Env) (query : String)
    (limit : Int) (uid : String) : List SearchResult :=
  m.SearchWithOptions env query
    { Limit := limit,
      VectorWeight := m.config.DefaultVectorWeight,
      TextWeight := m.config.DefaultTextWeight,
      MinScore := m.config.DefaultMinScore }
    uid

/-- The short-term-only pipeline: what `SearchWithOptions` computes
when the long-term query fails (filter, sort and truncation applied to
the lexical pass alone). -/
def shortTermOnlySearch (m : HybridMemory) (query : String)
    (options₀ : SearchOptions) (uid : String) : List SearchResult :=
  let options := effectiveOptions m.config options₀
  let rm1 := (searchShortTerm m query uid options).foldl insertShort []
  truncateResults options.Limit (sortByScoreDesc (filterResults options rm1))

/-- Sorted by non-increasing combined score. -/
def sortedByScore (l : List SearchResult) : Prop :=
  l.Pairwise (fun a b => b.score ≤ a.score)

/-- Every result's combined score is at least `ms`. -/
def minScoreOK (ms : Rat) (l : List SearchResult) : Bool :=
  l.all (fun r => decide (ms ≤ r.score))

/-- The long-term tier holds no system-role entry. -/
def noSystemDocs (longTerm : List Document) : Bool :=
  longTerm.all (fun d => !(d.role == Role.system))

/-- A sequence of `Add` calls, oldest first. -/
def addAll (m : HybridMemory) (env : Env) (msgs : List Message)
    (uid : String) : HybridMemory :=
  msgs.foldl (fun acc msg => acc.Add env msg uid) m

/-! ### Sample objects used by witnesses -/

/-- A sample user-role message. -/
def sampleUserMsg (id content : String) : Message :=
  { id := id, role := Role.user, content := content }

/-- A sample environment: embedding always succeeds, lookups succeed,
writes succeed, long-term queries fail. -/
def sampleEnv : Env :=
  { embed := fun _ => some [1], getOk := fun _ => true, addOk := true,
    ltQuery := fun _ _ _ => none }

/-- A sample valid configuration with tiering threshold 1. -/
def sampleConfig : HybridMemoryConfig :=
  { VectorDB := some (), Embedder := some (), LongTermThreshold := 1 }

/-- A sample engine state with one short-term message for tenant
`"u"`. -/
def sampleMemory : HybridMemory :=
  { shortTerm := fun u => if u = "u" then [sampleUserMsg "m1" "hello world"] else [],
    longTerm := [],
    config := sampleConfig }

/-! ### Theorems -/

/-- C8: `calculateTextSimilarity` is the word-overlap ratio the spec
describes — the number of query tokens occurring among the text's
tokens (text tokens as a set), divided by the query token count; `0`
for a tokenless query — and it meets the three pinned examples:
`("", anything) = 0`, `("hello world", "hello world") ≥ 0.9`,
`("hello", "goodbye") = 0`. -/
theorem claim_C8_text_similarity :
    (∀ query text : String,
      calculateTextSimilarity query text = specWordOverlapRatio query text)
    ∧ (∀ text : String, calculateTextSimilarity "" text = 0)
    ∧ (9 : Rat)/10 ≤ calculateTextSimilarity "hello world" "hello world"
    ∧ calculateTextSimilarity "hello" "goodbye" = 0 := by
  refine ⟨calculateTextSimilarity_eq_spec, fun _ => rfl, ?_, ?_⟩
  · unfold calculateTextSimilarity
    rw [show stringFields "hello world" = ["hello", "world"] from by decide]
    norm_num
  · unfold calculateTextSimilarity
    rw [show stringFields "hello" = ["hello"] from by decide,
      show stringFields "goodbye" = ["goodbye"] from by decide]
    norm_num
    decide

/-- C5: `NewHybridMemory` fails exactly when the config's `VectorDB`
or `Embedder` is missing; in the error case no instance accompanies
the error (`Except.error` carries only the message), and otherwise it
returns the fully initialized fresh instance, whatever the other
fields are. -/
theorem claim_C5_constructor_validation :
    ∀ config : HybridMemoryConfig,
      ((∃ e, NewHybridMemory config = Except.error e) ↔
        (config.VectorDB = none ∨ config.Embedder = none))
      ∧ (config.VectorDB ≠ none → config.Embedder ≠ none →
          NewHybridMemory config =
            Except.ok ({ shortTerm := fun _ => [], longTerm := [],
                         config := applyConfigDefaults config } : HybridMemory)) := by
  intro config
  unfold NewHybridMemory validateConfig
  constructor
  · by_cases hv : config.VectorDB = none
    · simp [hv]
    · by_cases he : config.Embedder = none <;> simp [hv, he]
  · intro hv he
    simp [hv, he]

/-- Witness for C5 at a concrete valid and a concrete invalid
config. -/
theorem claim_C5_constructor_validation_witness :
    NewHybridMemory ({ VectorDB := some (), Embedder := some () } : HybridMemoryConfig) =
      Except.ok ({ shortTerm := fun _ => [],
                   longTerm := [],
                   config := applyConfigDefaults
                     ({ VectorDB := some (), Embedder := some () } :
                       HybridMemoryConfig) } : HybridMemory)
    ∧ (∃ e, NewHybridMemory ({ VectorDB := none, Embedder := some () } : HybridMemoryConfig) =
        Except.error e) :=
  ⟨(claim_C5_constructor_validation _).2 (by simp) (by simp),
   ((claim_C5_constructor_validation _).1).mpr (Or.inl rfl)⟩

/-- C9: `Clear` zeroes the tenant's size, leaves every other tenant's
size unchanged, and leaves the long-term tier untouched. -/
theorem claim_C9_clear_frame :
    ∀ (m : HybridMemory) (uid other : String),
      (m.Clear uid).Size uid = 0
      ∧ (m.Clear uid).longTerm = m.longTerm
      ∧ (other ≠ uid → (m.Clear uid).Size other = m.Size other) := by
  intro m uid other
  refine ⟨?_, rfl, ?_⟩
  · simp [HybridMemory.Clear, HybridMemory.Size]
  · intro h
    simp [HybridMemory.Clear, HybridMemory.Size, h]

/-- Every candidate selected for migration is non-system. -/
theorem migrationCandidates_not_system {threshold : Int}
    {allMessages : List Message} {msg : Message}
    (h : msg ∈ migrationCandidates threshold allMessages) :
    ¬ msg.role = Role.system := by
  unfold migrationCandidates at h
  simpa using (List.mem_filter.mp h).2

/-- Candidates are among the oldest `count - threshold` messages. -/
theorem migrationCandidates_subset {threshold : Int}
    {allMessages : List Message} {msg : Message}
    (h : msg ∈ migrationCandidates threshold allMessages) :
    msg ∈ allMessages.take (allMessages.length - threshold.toNat) :=
  (List.mem_filter.mp h).1

/-- Every document the batch builder emits takes its id and role from
one of the candidates. -/
theorem buildDocuments_shape {env : Env} {uid : String}
    {longTerm : List Document} {toMove : List Message} {d : Document}
    (h : d ∈ buildDocuments env uid longTerm toMove) :
    ∃ msg ∈ toMove, d.id = msg.id ∧ d.role = msg.role := by
  unfold buildDocuments at h
  obtain ⟨msg, hmem, hf⟩ := List.mem_filterMap.mp h
  refine ⟨msg, hmem, ?_⟩
  split at hf
  · exact absurd hf (by simp)
  · cases hembed : env.embed msg.content with
    | none => rw [hembed] at hf; exact absurd hf (by simp)
    | some e =>
      rw [hembed] at hf
      cases Option.some.inj hf
      exact ⟨rfl, rfl⟩

/-- `moveToLongTerm` either leaves the long-term tier alone or appends
the batch built from the candidates. -/
theorem moveToLongTerm_cases (env : Env) (threshold : Int) (uid : String)
    (allMessages : List Message) (longTerm : List Document) :
    moveToLongTerm env threshold uid allMessages longTerm = longTerm ∨
    moveToLongTerm env threshold uid allMessages longTerm =
      longTerm ++ buildDocuments env uid longTerm
        (migrationCandidates threshold allMessages) := by
  unfold moveToLongTerm
  dsimp only
  by_cases h1 : (allMessages.length : Int) ≤ threshold
  · rw [if_pos h1]; exact Or.inl rfl
  · rw [if_neg h1]
    by_cases h2 : (migrationCandidates threshold allMessages).isEmpty = true
    · rw [if_pos h2]; exact Or.inl rfl
    · rw [if_neg h2]
      by_cases h3 : (buildDocuments env uid longTerm
          (migrationCandidates threshold allMessages)).isEmpty = true
      · rw [if_pos h3]; exact Or.inl rfl
      · rw [if_neg h3]
        by_cases h4 : env.addOk = true
        · rw [if_pos h4]; exact Or.inr rfl
        · rw [if_neg h4]; exact Or.inl rfl

/-- Migration never writes a system-role document. -/
theorem noSystemDocs_moveToLongTerm {env : Env} {threshold : Int}
    {uid : String} {allMessages : List Message} {longTerm : List Document}
    (h : noSystemDocs longTerm = true) :
    noSystemDocs (moveToLongTerm env threshold uid allMessages longTerm)
      = true := by
  rcases moveToLongTerm_cases env threshold uid allMessages longTerm
    with hc | hc <;> rw [hc]
  · exact h
  · unfold noSystemDocs at h ⊢
    rw [List.all_append, h, Bool.true_and, List.all_eq_true]
    intro d hd
    obtain ⟨msg, hmem, -, hrole⟩ := buildDocuments_shape hd
    have hns := migrationCandidates_not_system hmem
    simp [hrole, hns]

/-- An id present on the left of an append is present in the whole. -/
theorem containsId_append_left {longTerm ds : List Document} {id : String}
    (h : containsId longTerm id = true) :
    containsId (longTerm ++ ds) id = true := by
  unfold containsId at h ⊢
  rw [List.any_append, h, Bool.true_or]

/-- An id present on the right of an append is present in the whole. -/
theorem containsId_append_right {longTerm ds : List Document} {id : String}
    (h : containsId ds id = true) :
    containsId (longTerm ++ ds) id = true := by
  unfold containsId at h ⊢
  rw [List.any_append, h, Bool.or_true]

/-- A member document's id is contained. -/
theorem containsId_of_mem {longTerm : List Document} {d : Document}
    (h : d ∈ longTerm) : containsId longTerm d.id = true := by
  unfold containsId
  rw [List.any_eq_true]
  exact ⟨d, h, by simp⟩

/-- When the batched write fails, migration leaves the long-term tier
unchanged. -/
theorem moveToLongTerm_addFail {env : Env} (threshold : Int) (uid : String)
    (allMessages : List Message) (longTerm : List Document)
    (h : env.addOk = false) :
    moveToLongTerm env threshold uid allMessages longTerm = longTerm := by
  unfold moveToLongTerm
  dsimp only
  by_cases h1 : (allMessages.length : Int) ≤ threshold
  · rw [if_pos h1]
  · rw [if_neg h1]
    by_cases h2 : (migrationCandidates threshold allMessages).isEmpty = true
    · rw [if_pos h2]
    · rw [if_neg h2]
      by_cases h3 : (buildDocuments env uid longTerm
          (migrationCandidates threshold allMessages)).isEmpty = true
      · rw [if_pos h3]
      · rw [if_neg h3, h]
        simp

/-- A candidate whose embedding succeeds and that is not skipped
contributes its document to the batch. -/
theorem buildDocuments_mem {env : Env} {uid : String}
    {longTerm : List Document} {toMove : List Message} {msg : Message}
    {e : List Rat}
    (hmem : msg ∈ toMove)
    (hembed : env.embed msg.content = some e)
    (hskip : (env.getOk msg.id && containsId longTerm msg.id) = false) :
    ({ id := msg.id, content := msg.content, embedding := e, userId := uid,
       role := msg.role } : Document)
      ∈ buildDocuments env uid longTerm toMove := by
  unfold buildDocuments
  apply List.mem_filterMap.mpr
  refine ⟨msg, hmem, ?_⟩
  rw [if_neg (by simp [hskip]), hembed]

/-- When every candidate's existence lookup succeeds, the batch only
carries ids absent from the long-term tier. -/
theorem buildDocuments_new_ids {env : Env} {uid : String}
    {longTerm : List Document} {toMove : List Message} {d : Document}
    (hget : ∀ msg ∈ toMove, env.getOk msg.id = true)
    (hd : d ∈ buildDocuments env uid longTerm toMove) :
    containsId longTerm d.id = false := by
  unfold buildDocuments at hd
  obtain ⟨msg, hmem, hf⟩ := List.mem_filterMap.mp hd
  by_cases hc : containsId longTerm msg.id = true
  · rw [if_pos (by rw [hget msg hmem, hc]; rfl)] at hf
    exact absurd hf (by simp)
  · simp only [Bool.not_eq_true] at hc
    have hid : d.id = msg.id := by
      rw [if_neg (by simp [hc])] at hf
      cases hembed : env.embed msg.content with
      | none => rw [hembed] at hf; exact absurd hf (by simp)
      | some e => rw [hembed] at hf; cases Option.some.inj hf; rfl
    rw [hid]
    exact hc

/-- The batch is empty when every candidate is either skipped by the
existence check or fails to embed. -/
theorem buildDocuments_eq_nil {env : Env} {uid : String}
    {longTerm : List Document} {toMove : List Message}
    (h : ∀ msg ∈ toMove,
      (env.getOk msg.id && containsId longTerm msg.id) = true
      ∨ env.embed msg.content = none) :
    buildDocuments env uid longTerm toMove = [] := by
  unfold buildDocuments
  rw [List.filterMap_eq_nil_iff]
  intro msg hmem
  by_cases hs : (env.getOk msg.id && containsId longTerm msg.id) = true
  · rw [if_pos hs]
  · rcases h msg hmem with hsk | hembed
    · exact absurd hsk hs
    · rw [if_neg hs, hembed]

/-- Re-running the batch builder against the long-term tier extended
with its own previous output yields nothing new (all lookups
succeeding). -/
theorem buildDocuments_after_append {env : Env} {uid : String}
    {longTerm : List Document} {toMove : List Message}
    (hget : ∀ msg ∈ toMove, env.getOk msg.id = true) :
    buildDocuments env uid
      (longTerm ++ buildDocuments env uid longTerm toMove) toMove = [] := by
  apply buildDocuments_eq_nil
  intro msg hmem
  by_cases hc : containsId longTerm msg.id = true
  · exact Or.inl (by rw [hget msg hmem, containsId_append_left hc]; rfl)
  · simp only [Bool.not_eq_true] at hc
    cases hembed : env.embed msg.content with
    | none => exact Or.inr rfl
    | some e =>
      have hdoc := @buildDocuments_mem env uid longTerm toMove msg e
        hmem hembed (by rw [hc, Bool.and_false])
      have hcontains := @containsId_append_right longTerm
        (buildDocuments env uid longTerm toMove) _ (containsId_of_mem hdoc)
      dsimp only at hcontains
      exact Or.inl (by rw [hget msg hmem, hcontains]; rfl)

/-- C4: with succeeding existence lookups, a migration pass only
appends documents whose ids were absent, and running the pass twice
with no intervening `Add` leaves the long-term tier exactly as one
pass does. -/
theorem claim_C4_migration_idempotent :
    ∀ (env : Env) (threshold : Int) (uid : String)
      (allMessages : List Message) (longTerm : List Document),
      (∀ msg ∈ allMessages, env.getOk msg.id = true) →
      ((∃ newDocs,
          moveToLongTerm env threshold uid allMessages longTerm
            = longTerm ++ newDocs
          ∧ ∀ d ∈ newDocs, containsId longTerm d.id = false)
       ∧ moveToLongTerm env threshold uid allMessages
           (moveToLongTerm env threshold uid allMessages longTerm)
         = moveToLongTerm env threshold uid allMessages longTerm) := by
  intro env threshold uid allMessages longTerm hget
  have hget2 : ∀ msg ∈ migrationCandidates threshold allMessages,
      env.getOk msg.id = true :=
    fun msg hm =>
      hget msg (List.take_subset _ _ (migrationCandidates_subset hm))
  constructor
  · rcases moveToLongTerm_cases env threshold uid allMessages longTerm
      with hc | hc
    · exact ⟨[], by rw [hc, List.append_nil], by simp⟩
    · exact ⟨_, hc, fun d hd => buildDocuments_new_ids hget2 hd⟩
  · by_cases hao : env.addOk = true
    · by_cases h1 : (allMessages.length : Int) ≤ threshold
      · have e1 : moveToLongTerm env threshold uid allMessages longTerm
            = longTerm := by
          unfold moveToLongTerm; rw [if_pos h1]
        rw [e1]; exact e1
      · by_cases h2 :
            (migrationCandidates threshold allMessages).isEmpty = true
        · have e1 : moveToLongTerm env threshold uid allMessages longTerm
              = longTerm := by
            unfold moveToLongTerm; dsimp only; rw [if_neg h1, if_pos h2]
          rw [e1]; exact e1
        · by_cases h3 : (buildDocuments env uid longTerm
              (migrationCandidates threshold allMessages)).isEmpty = true
          · have e1 : moveToLongTerm env threshold uid allMessages longTerm
                = longTerm := by
              unfold moveToLongTerm; dsimp only
              rw [if_neg h1, if_neg h2, if_pos h3]
            rw [e1]; exact e1
          · have e1 : moveToLongTerm env threshold uid allMessages longTerm
                = longTerm ++ buildDocuments env uid longTerm
                    (migrationCandidates threshold allMessages) := by
              unfold moveToLongTerm; dsimp only
              rw [if_neg h1, if_neg h2, if_neg h3, if_pos hao]
            have e2 := @buildDocuments_after_append env uid longTerm _ hget2
            rw [e1]
            unfold moveToLongTerm
            dsimp only
            rw [if_neg h1, if_neg h2, e2]
            simp
    · simp only [Bool.not_eq_true] at hao
      rw [moveToLongTerm_addFail _ _ _ _ hao,
        moveToLongTerm_addFail _ _ _ _ hao]

/-- Witness for C4 on a concrete two-message pass over an empty
long-term tier. -/
theorem claim_C4_migration_idempotent_witness :
    moveToLongTerm sampleEnv 1 "u"
        [sampleUserMsg "m1" "one", sampleUserMsg "m2" "two"]
        (moveToLongTerm sampleEnv 1 "u"
          [sampleUserMsg "m1" "one", sampleUserMsg "m2" "two"] [])
      = moveToLongTerm sampleEnv 1 "u"
          [sampleUserMsg "m1" "one", sampleUserMsg "m2" "two"] [] :=
  (claim_C4_migration_idempotent sampleEnv 1 "u"
    [sampleUserMsg "m1" "one", sampleUserMsg "m2" "two"] []
    (by decide)).2

/-- `Add` preserves the no-system invariant of the long-term tier. -/
theorem noSystemDocs_Add {m : HybridMemory} {env : Env} {msg : Message}
    {uid : String} (h : noSystemDocs m.longTerm = true) :
    noSystemDocs ((m.Add env msg uid)).longTerm = true := by
  unfold HybridMemory.Add
  split
  · exact noSystemDocs_moveToLongTerm h
  · exact h

/-- A fresh engine state with the given configuration (what the
constructor returns, before any message is added). -/
def freshMemory (cfg : HybridMemoryConfig) : HybridMemory :=
  { shortTerm := fun _ => [], longTerm := [], config := cfg }

/-- `Add` leaves the configuration unchanged. -/
theorem config_Add (m : HybridMemory) (env : Env) (msg : Message)
    (uid : String) : (m.Add env msg uid).config = m.config := by
  unfold HybridMemory.Add
  split <;> rfl

/-- `Add` appends the message to the tenant's short-term bucket
(migration never removes short-term entries). -/
theorem shortTerm_Add (m : HybridMemory) (env : Env) (msg : Message)
    (uid : String) :
    (m.Add env msg uid).shortTerm uid = m.shortTerm uid ++ [msg] := by
  unfold HybridMemory.Add InMemoryAdd
  split <;> simp

/-- With a positive threshold, `Add` runs migration over the appended
bucket. -/
theorem longTerm_Add_pos {m : HybridMemory} {env : Env} {msg : Message}
    {uid : String} (h : 0 < m.config.LongTermThreshold) :
    (m.Add env msg uid).longTerm
      = moveToLongTerm env m.config.LongTermThreshold uid
          (m.shortTerm uid ++ [msg]) m.longTerm := by
  simp [HybridMemory.Add, InMemoryAdd, h]

/-- `addAll` peels its last message. -/
theorem addAll_concat (m : HybridMemory) (env : Env) (msgs : List Message)
    (msg : Message) (uid : String) :
    addAll m env (msgs ++ [msg]) uid
      = (addAll m env msgs uid).Add env msg uid := by
  unfold addAll
  rw [List.foldl_append]
  rfl

/-- `addAll` appends all messages to the tenant's bucket. -/
theorem addAll_shortTerm (m : HybridMemory) (env : Env)
    (msgs : List Message) (uid : String) :
    (addAll m env msgs uid).shortTerm uid = m.shortTerm uid ++ msgs := by
  induction msgs generalizing m with
  | nil => simp [addAll]
  | cons p ps ih =>
    show (addAll (m.Add env p uid) env ps uid).shortTerm uid = _
    rw [ih, shortTerm_Add]
    simp

/-- `addAll` leaves the configuration unchanged. -/
theorem addAll_config (m : HybridMemory) (env : Env) (msgs : List Message)
    (uid : String) : (addAll m env msgs uid).config = m.config := by
  induction msgs generalizing m with
  | nil => rfl
  | cons p ps ih =>
    show (addAll (m.Add env p uid) env ps uid).config = _
    rw [ih, config_Add]

/-- A list with a member is not empty. -/
theorem isEmpty_false_of_mem {A : Type} {x : A} {l : List A} (h : x ∈ l) :
    l.isEmpty = false := by
  cases l
  · cases h
  · rfl

/-- A migration candidate whose embedding succeeds ends up present in
the long-term tier after the pass (either it was already there, or its
document is in the written batch). -/
theorem moveToLongTerm_contains {env : Env} {threshold : Int}
    {uid : String} {allMessages : List Message} {longTerm : List Document}
    {msg : Message}
    (hmem : msg ∈ migrationCandidates threshold allMessages)
    (hlen : ¬ ((allMessages.length : Int) ≤ threshold))
    (hembed : (env.embed msg.content).isSome = true)
    (haddOk : env.addOk = true) :
    containsId (moveToLongTerm env threshold uid allMessages longTerm)
      msg.id = true := by
  unfold moveToLongTerm
  dsimp only
  rw [if_neg hlen]
  have hne : (migrationCandidates threshold allMessages).isEmpty = false :=
    isEmpty_false_of_mem hmem
  rw [if_neg (by rw [hne]; exact Bool.false_ne_true)]
  by_cases hsk : (env.getOk msg.id && containsId longTerm msg.id) = true
  · have hc : containsId longTerm msg.id = true := by
      rw [Bool.and_eq_true] at hsk
      exact hsk.2
    by_cases hd : (buildDocuments env uid longTerm
        (migrationCandidates threshold allMessages)).isEmpty = true
    · rw [if_pos hd]; exact hc
    · rw [if_neg hd, if_pos haddOk]
      exact containsId_append_left hc
  · obtain ⟨e, he⟩ := Option.isSome_iff_exists.mp hembed
    have hdoc := @buildDocuments_mem env uid longTerm
      (migrationCandidates threshold allMessages) msg e hmem he
      (by simpa using hsk)
    have hd : (buildDocuments env uid longTerm
        (migrationCandidates threshold allMessages)).isEmpty = false :=
      isEmpty_false_of_mem hdoc
    rw [if_neg (by rw [hd]; exact Bool.false_ne_true), if_pos haddOk]
    have h2 := @containsId_append_right longTerm
      (buildDocuments env uid longTerm
        (migrationCandidates threshold allMessages)) _
      (containsId_of_mem hdoc)
    dsimp only at h2
    exact h2

/-- `addAll` from a clean long-term tier keeps it system-free. -/
theorem noSystemDocs_addAll {m : HybridMemory} {env : Env} {uid : String}
    (msgs : List Message) (h : noSystemDocs m.longTerm = true) :
    noSystemDocs (addAll m env msgs uid).longTerm = true := by
  induction msgs generalizing m with
  | nil => exact h
  | cons p ps ih =>
    show noSystemDocs (addAll (m.Add env p uid) env ps uid).longTerm = true
    exact ih (noSystemDocs_Add h)

/-- C2: with threshold `T > 0`, after a tenant adds `T + k` non-system
messages with distinct ids whose embeddings and long-term writes
succeed, the long-term tier contains (at least) the oldest `k` of them
and holds no system-role entry. -/
theorem claim_C2_threshold_migration :
    ∀ (env : Env) (cfg : HybridMemoryConfig) (uid : String)
      (msgs : List Message) (k : Nat),
      0 < cfg.LongTermThreshold →
      (msgs.length : Int) = cfg.LongTermThreshold + k →
      0 < k →
      (∀ msg ∈ msgs, ¬ msg.role = Role.system) →
      ((msgs.map Message.id).Nodup) →
      (∀ msg ∈ msgs, (env.embed msg.content).isSome = true) →
      env.addOk = true →
      ((∀ msg ∈ msgs.take k,
          containsId (addAll (freshMemory cfg) env msgs uid).longTerm
            msg.id = true)
       ∧ noSystemDocs (addAll (freshMemory cfg) env msgs uid).longTerm
           = true) := by
  intro env cfg uid msgs k hT hlen hk hroles hids hembed haddOk
  constructor
  · rcases List.eq_nil_or_concat msgs with hnil | ⟨front, last, hcat⟩
    · subst hnil
      simp at hlen
      omega
    · rw [List.concat_eq_append] at hcat
      intro msg hmemk
      have hmPrevCfg : (addAll (freshMemory cfg) env front uid).config = cfg :=
        addAll_config _ _ _ _
      have hmPrevShort :
          (addAll (freshMemory cfg) env front uid).shortTerm uid = front := by
        rw [addAll_shortTerm]
        rfl
      have hfinal : (addAll (freshMemory cfg) env msgs uid).longTerm
          = moveToLongTerm env cfg.LongTermThreshold uid msgs
              (addAll (freshMemory cfg) env front uid).longTerm := by
        rw [hcat, addAll_concat,
          longTerm_Add_pos (by rw [hmPrevCfg]; exact hT),
          hmPrevCfg, hmPrevShort, ← hcat]
      rw [hfinal]
      have htoNat : ((cfg.LongTermThreshold.toNat : Int))
          = cfg.LongTermThreshold := Int.toNat_of_nonneg (le_of_lt hT)
      have hlenNat : msgs.length = cfg.LongTermThreshold.toNat + k := by
        omega
      have hcand : msg ∈ migrationCandidates cfg.LongTermThreshold msgs := by
        unfold migrationCandidates
        apply List.mem_filter.mpr
        constructor
        · have : msgs.length - cfg.LongTermThreshold.toNat = k := by omega
          rw [this]
          exact hmemk
        · simp [hroles msg (List.take_subset _ _ hmemk)]
      have hlen2 : ¬ ((msgs.length : Int) ≤ cfg.LongTermThreshold) := by
        omega
      exact moveToLongTerm_contains hcand hlen2
        (hembed msg (List.take_subset _ _ hmemk)) haddOk
  · exact noSystemDocs_addAll msgs rfl

/-- Witness for C2: threshold 1, two user messages, all external calls
succeeding; the oldest message must be in the long-term tier. -/
theorem claim_C2_threshold_migration_witness :
    containsId (addAll (freshMemory sampleConfig) sampleEnv
        [sampleUserMsg "m1" "one", sampleUserMsg "m2" "two"] "u").longTerm
      (sampleUserMsg "m1" "one").id = true
    ∧ noSystemDocs (addAll (freshMemory sampleConfig) sampleEnv
        [sampleUserMsg "m1" "one", sampleUserMsg "m2" "two"] "u").longTerm
      = true :=
  ⟨(claim_C2_threshold_migration sampleEnv sampleConfig "u"
      [sampleUserMsg "m1" "one", sampleUserMsg "m2" "two"] 1
      (by decide) (by decide) (by decide) (by decide) (by decide)
      (by decide) (by decide)).1 (sampleUserMsg "m1" "one") (by decide),
   (claim_C2_threshold_migration sampleEnv sampleConfig "u"
      [sampleUserMsg "m1" "one", sampleUserMsg "m2" "two"] 1
      (by decide) (by decide) (by decide) (by decide) (by decide)
      (by decide) (by decide)).2⟩

/-- C3: across any sequence of `Add` operations (any messages, any
tenants, any collaborator behavior), the long-term tier's no-system
invariant is preserved: no system-role entry is ever written. -/
theorem claim_C3_no_system_invariant :
    ∀ (m : HybridMemory) (env : Env) (ops : List (Message × String)),
      noSystemDocs m.longTerm = true →
      noSystemDocs ((ops.foldl (fun acc p => acc.Add env p.1 p.2) m)).longTerm
        = true := by
  intro m env ops
  induction ops generalizing m with
  | nil => exact fun h => h
  | cons p ps ih => exact fun h => ih _ (noSystemDocs_Add h)

/-- Witness for C3: one user message and one system message added to
the sample engine. -/
theorem claim_C3_no_system_invariant_witness :
    noSystemDocs (([(sampleUserMsg "m2" "hi", "u"),
        ({ id := "m3", role := Role.system, content := "sys" }, "u")].foldl
      (fun acc p => acc.Add sampleEnv p.1 p.2) sampleMemory)).longTerm
      = true :=
  claim_C3_no_system_invariant sampleMemory sampleEnv _ (by decide)

/-- Witness for C9 on the sample engine, clearing `"u"` and checking
tenant `"v"` is untouched. -/
theorem claim_C9_clear_frame_witness :
    (sampleMemory.Clear "u").Size "u" = 0
    ∧ (sampleMemory.Clear "u").longTerm = sampleMemory.longTerm
    ∧ (sampleMemory.Clear "u").Size "v" = sampleMemory.Size "v" :=
  ⟨(claim_C9_clear_frame sampleMemory "u" "v").1,
   (claim_C9_clear_frame sampleMemory "u" "v").2.1,
   (claim_C9_clear_frame sampleMemory "u" "v").2.2 (by decide)⟩


/-- Membership through one insertion step of the descending sort. -/
theorem mem_insertDesc {r y : SearchResult} {l : List SearchResult} :
    y ∈ insertDesc r l ↔ y = r ∨ y ∈ l := by
  induction l with
  | nil => simp [insertDesc]
  | cons x xs ih =>
    unfold insertDesc
    by_cases h : x.score < r.score
    · rw [if_pos h]
      simp only [List.mem_cons]
    · rw [if_neg h]
      simp only [List.mem_cons, ih]
      tauto

/-- Insertion preserves the non-increasing order. -/
theorem sortedByScore_insertDesc {r : SearchResult} {l : List SearchResult}
    (h : sortedByScore l) : sortedByScore (insertDesc r l) := by
  induction l with
  | nil =>
    unfold insertDesc sortedByScore
    simp
  | cons x xs ih =>
    unfold insertDesc
    unfold sortedByScore at h
    rw [List.pairwise_cons] at h
    obtain ⟨hx, hxs⟩ := h
    by_cases hc : x.score < r.score
    · rw [if_pos hc]
      unfold sortedByScore
      refine List.Pairwise.cons ?_ (List.Pairwise.cons hx hxs)
      intro y hy
      rcases List.mem_cons.mp hy with rfl | hy2
      · exact le_of_lt hc
      · exact (hx y hy2).trans (le_of_lt hc)
    · rw [if_neg hc]
      unfold sortedByScore
      refine List.Pairwise.cons ?_ (ih hxs)
      intro y hy
      rcases mem_insertDesc.mp hy with rfl | hy2
      · exact le_of_not_lt hc
      · exact hx y hy2

/-- The sort step really sorts by non-increasing combined score. -/
theorem sortedByScore_sort (l : List SearchResult) :
    sortedByScore (sortByScoreDesc l) := by
  unfold sortByScoreDesc
  induction l with
  | nil =>
    unfold sortedByScore
    simp
  | cons x xs ih => exact sortedByScore_insertDesc ih

/-- The sort step neither adds nor removes results. -/
theorem mem_sortByScoreDesc {y : SearchResult} {l : List SearchResult} :
    y ∈ sortByScoreDesc l ↔ y ∈ l := by
  unfold sortByScoreDesc
  induction l with
  | nil => simp
  | cons x xs ih =>
    rw [List.foldr_cons, mem_insertDesc, ih, List.mem_cons]

/-- Everything the filter step keeps meets the minimum score. -/
theorem filterResults_minScore {options : SearchOptions}
    {rm : List (String × SearchResult)} {r : SearchResult}
    (h : r ∈ filterResults options rm) : options.MinScore ≤ r.score := by
  unfold filterResults at h
  have h2 := (List.mem_filter.mp h).2
  rw [Bool.and_eq_true] at h2
  exact of_decide_eq_true h2.1

/-- Everything the filter step keeps passes the role allow-list. -/
theorem filterResults_roles {options : SearchOptions}
    {rm : List (String × SearchResult)} {r : SearchResult}
    (h : r ∈ filterResults options rm) :
    passesRoleFilter options.FilterByRole r = true := by
  unfold filterResults at h
  have h2 := (List.mem_filter.mp h).2
  rw [Bool.and_eq_true] at h2
  exact h2.2

/-- Truncation only drops results. -/
theorem truncateResults_subset {lim : Int} {l : List SearchResult}
    {r : SearchResult} (h : r ∈ truncateResults lim l) : r ∈ l := by
  unfold truncateResults at h
  split at h
  · exact List.take_subset _ _ h
  · exact h

/-- Truncation preserves sortedness. -/
theorem sortedByScore_truncate {lim : Int} {l : List SearchResult}
    (h : sortedByScore l) : sortedByScore (truncateResults lim l) := by
  unfold truncateResults
  split
  · exact List.Pairwise.sublist (List.take_sublist _ _) h
  · exact h

/-- Truncation enforces the (positive) limit. -/
theorem length_truncateResults {lim : Int} (hl : 0 < lim)
    (l : List SearchResult) :
    ((truncateResults lim l).length : Int) ≤ lim := by
  unfold truncateResults
  split
  · rename_i h
    rw [List.length_take]
    have ht := Int.toNat_of_nonneg (le_of_lt hl)
    omega
  · rename_i h
    omega

/-- The effective limit: 5 when the caller leaves it non-positive. -/
theorem effectiveOptions_Limit (cfg : HybridMemoryConfig)
    (options : SearchOptions) :
    (effectiveOptions cfg options).Limit
      = if options.Limit ≤ 0 then 5 else options.Limit := by
  unfold effectiveOptions normalizeWeights resolveOptionDefaults
  dsimp only
  simp only [apply_ite SearchOptions.Limit, ite_self]

/-- The effective minimum score: the engine default only when the
caller supplies a negative value (`0` is kept as `0`). -/
theorem effectiveOptions_MinScore (cfg : HybridMemoryConfig)
    (options : SearchOptions) :
    (effectiveOptions cfg options).MinScore
      = if options.MinScore < 0 then cfg.DefaultMinScore
        else options.MinScore := by
  unfold effectiveOptions normalizeWeights resolveOptionDefaults
  dsimp only
  simp only [apply_ite SearchOptions.MinScore, ite_self]

/-- The resolved vector weight, before normalization. -/
theorem resolveOptionDefaults_VectorWeight (cfg : HybridMemoryConfig)
    (options : SearchOptions) :
    (resolveOptionDefaults cfg options).VectorWeight
      = if options.VectorWeight ≤ 0 then cfg.DefaultVectorWeight
        else options.VectorWeight := by
  unfold resolveOptionDefaults
  dsimp only
  simp only [apply_ite SearchOptions.VectorWeight, ite_self]

/-- The resolved text weight, before normalization. -/
theorem resolveOptionDefaults_TextWeight (cfg : HybridMemoryConfig)
    (options : SearchOptions) :
    (resolveOptionDefaults cfg options).TextWeight
      = if options.TextWeight ≤ 0 then cfg.DefaultTextWeight
        else options.TextWeight := by
  unfold resolveOptionDefaults
  dsimp only
  simp only [apply_ite SearchOptions.TextWeight, ite_self]

/-- The filter-sort-truncate tail of the search pipeline is sorted,
bounded by the options’ (positive) limit, and above the options’
minimum score. -/
theorem pipeline_props (options : SearchOptions) (hl : 0 < options.Limit)
    (rm : List (String × SearchResult)) :
    sortedByScore (truncateResults options.Limit
        (sortByScoreDesc (filterResults options rm)))
    ∧ minScoreOK options.MinScore (truncateResults options.Limit
        (sortByScoreDesc (filterResults options rm))) = true
    ∧ ((truncateResults options.Limit
        (sortByScoreDesc (filterResults options rm))).length : Int)
        ≤ options.Limit := by
  refine ⟨sortedByScore_truncate (sortedByScore_sort _), ?_,
    length_truncateResults hl _⟩
  unfold minScoreOK
  rw [List.all_eq_true]
  intro r hr
  exact decide_eq_true (filterResults_minScore
    (mem_sortByScoreDesc.mp (truncateResults_subset hr)))

/-- The search pipeline’s guarantees, phrased over the effective
options. -/
theorem searchWithOptions_props (m : HybridMemory) (env : Env)
    (query : String) (options : SearchOptions) (uid : String) :
    sortedByScore (m.SearchWithOptions env query options uid)
    ∧ minScoreOK (effectiveOptions m.config options).MinScore
        (m.SearchWithOptions env query options uid) = true
    ∧ ((m.SearchWithOptions env query options uid).length : Int)
        ≤ (effectiveOptions m.config options).Limit := by
  have hl : 0 < (effectiveOptions m.config options).Limit := by
    rw [effectiveOptions_Limit]
    split <;> omega
  unfold HybridMemory.SearchWithOptions
  dsimp only
  exact pipeline_props (effectiveOptions m.config options) hl _

/-- C1: for every engine state, query, tenant and options, the search
result list is sorted by non-increasing combined score, every returned
score meets the effective minimum score, and its length is at most the
effective limit (5 when the caller’s limit is non-positive); the same
holds for `Search`. -/
theorem claim_C1_search_sorted_bounded :
    ∀ (m : HybridMemory) (env : Env) (query : String)
      (options : SearchOptions) (uid : String) (limit : Int),
      sortedByScore (m.SearchWithOptions env query options uid)
      ∧ minScoreOK
          (if options.MinScore < 0 then m.config.DefaultMinScore
            else options.MinScore)
          (m.SearchWithOptions env query options uid) = true
      ∧ ((m.SearchWithOptions env query options uid).length : Int)
          ≤ (if options.Limit ≤ 0 then 5 else options.Limit)
      ∧ sortedByScore (m.Search env query limit uid)
      ∧ minScoreOK m.config.DefaultMinScore
          (m.Search env query limit uid) = true
      ∧ ((m.Search env query limit uid).length : Int)
          ≤ (if limit ≤ 0 then 5 else limit) := by
  intro m env query options uid limit
  obtain ⟨hs, hm, hn⟩ := searchWithOptions_props m env query options uid
  rw [effectiveOptions_MinScore] at hm
  rw [effectiveOptions_Limit] at hn
  obtain ⟨hs2, hm2, hn2⟩ := searchWithOptions_props m env query
    { Limit := limit,
      VectorWeight := m.config.DefaultVectorWeight,
      TextWeight := m.config.DefaultTextWeight,
      MinScore := m.config.DefaultMinScore } uid
  rw [effectiveOptions_MinScore] at hm2
  rw [effectiveOptions_Limit] at hn2
  rw [ite_self] at hm2
  exact ⟨hs, hm, hn, hs2, hm2, hn2⟩


/-- C6: when the long-term query call fails, `SearchWithOptions`
still returns a nil error and its result list is exactly the
short-term-only pipeline (lexical pass, filtered, sorted,
truncated). -/
theorem claim_C6_longterm_failure_degrades :
    ∀ (m : HybridMemory) (env : Env) (query : String)
      (options : SearchOptions) (uid : String),
      env.ltQuery query ((effectiveOptions m.config options).Limit * 2) uid
          = none →
      m.SearchWithOptionsE env query options uid
        = Except.ok (shortTermOnlySearch m query options uid) := by
  intro m env query options uid h
  unfold HybridMemory.SearchWithOptionsE HybridMemory.SearchWithOptions
    shortTermOnlySearch searchLongTerm
  dsimp only
  rw [h]

/-- Witness for C6: the sample environment’s long-term queries always
fail, so search degrades to the short-term pipeline. -/
theorem claim_C6_longterm_failure_degrades_witness :
    sampleMemory.SearchWithOptionsE sampleEnv "hello" {} "u"
      = Except.ok (shortTermOnlySearch sampleMemory "hello" {} "u") :=
  claim_C6_longterm_failure_degrades sampleMemory sampleEnv "hello" {} "u" rfl

/-- Updating the entry for one id in the result map: the entry becomes
`f` of its old value. -/
theorem lookupId_map_update {rm : List (String × SearchResult)}
    {id : String} {f : SearchResult → SearchResult} {e : SearchResult}
    (h : lookupId rm id = some e) :
    lookupId (rm.map (fun p => if p.1 = id then (p.1, f p.2) else p)) id
      = some (f e) := by
  induction rm with
  | nil => exact absurd h (by simp [lookupId])
  | cons p ps ih =>
    rw [List.map_cons]
    by_cases hp : p.1 = id
    · rw [if_pos hp]
      unfold lookupId at h ⊢
      rw [if_pos hp] at h
      cases Option.some.inj h
      dsimp only
      rw [if_pos hp]
    · rw [if_neg hp]
      unfold lookupId at h ⊢
      rw [if_neg hp] at h
      rw [if_neg hp]
      exact ih h

/-- Updating the entry for one id leaves every other id’s lookup
unchanged. -/
theorem lookupId_map_update_ne {rm : List (String × SearchResult)}
    {id id2 : String} {f : SearchResult → SearchResult}
    (hne : id2 ≠ id) :
    lookupId (rm.map (fun p => if p.1 = id then (p.1, f p.2) else p)) id2
      = lookupId rm id2 := by
  induction rm with
  | nil => rfl
  | cons p ps ih =>
    rw [List.map_cons]
    by_cases hp : p.1 = id
    · rw [if_pos hp]
      unfold lookupId
      dsimp only
      rw [if_neg (by rw [hp]; exact fun hx => hne hx.symm),
        if_neg (by rw [← hp] at hne; exact fun hx => (hne hx.symm).elim)]
      exact ih
    · rw [if_neg hp]
      unfold lookupId
      by_cases hq : p.1 = id2
      · rw [if_pos hq, if_pos hq]
      · rw [if_neg hq, if_neg hq]
        exact ih

/-- Every result of the lexical pass carries the `"short_term"`
provenance tag and a zero vector score. -/
theorem searchShortTerm_source (m : HybridMemory) (query uid : String)
    (options : SearchOptions) (s : SearchResult)
    (h : s ∈ searchShortTerm m query uid options) :
    s.source = "short_term" ∧ s.vectorScore = 0 := by
  unfold searchShortTerm at h
  obtain ⟨msg, hmem, hf⟩ := List.mem_filterMap.mp h
  dsimp only at hf
  split at hf
  · cases Option.some.inj hf
    exact ⟨rfl, rfl⟩
  · exact absurd hf (by simp)

/-- C10: merging a long-term result whose id already has an entry
keeps the entry’s provenance tag, text score and message, updates the
vector score and the combined score exactly when the long-term vector
score is strictly greater, and touches no other entry; entries coming
from the short-term pass carry the `"short_term"` tag. -/
theorem claim_C10_merge_keeps_short_entry :
    (∀ (m : HybridMemory) (query uid : String) (options : SearchOptions)
        (s : SearchResult), s ∈ searchShortTerm m query uid options →
        s.source = "short_term")
    ∧ ∀ (tw vw : Rat) (rm : List (String × SearchResult))
        (e r : SearchResult),
        lookupId rm r.message.id = some e →
        (lookupId (mergeLong tw vw rm r) r.message.id
            = some (mergeEntry tw vw e r)
          ∧ (mergeEntry tw vw e r).source = e.source
          ∧ (mergeEntry tw vw e r).textScore = e.textScore
          ∧ (mergeEntry tw vw e r).message = e.message
          ∧ (e.vectorScore < r.vectorScore →
              (mergeEntry tw vw e r).vectorScore = r.vectorScore
              ∧ (mergeEntry tw vw e r).score
                  = e.textScore * tw + r.vectorScore * vw)
          ∧ (¬ e.vectorScore < r.vectorScore → mergeEntry tw vw e r = e)
          ∧ ∀ id2, id2 ≠ r.message.id →
              lookupId (mergeLong tw vw rm r) id2 = lookupId rm id2) := by
  constructor
  · exact fun m query uid options s h =>
      (searchShortTerm_source m query uid options s h).1
  · intro tw vw rm e r h
    have hsome : (lookupId rm r.message.id).isSome = true := by
      rw [h]; rfl
    unfold mergeLong
    rw [if_pos hsome]
    refine ⟨@lookupId_map_update rm r.message.id
      (fun s => mergeEntry tw vw s r) e h, ?_, ?_, ?_, ?_, ?_, ?_⟩
    · unfold mergeEntry
      split <;> rfl
    · unfold mergeEntry
      split <;> rfl
    · unfold mergeEntry
      split <;> rfl
    · intro hlt
      unfold mergeEntry
      rw [if_pos hlt]
      exact ⟨rfl, rfl⟩
    · intro hge
      unfold mergeEntry
      rw [if_neg hge]
    · intro id2 hne
      exact @lookupId_map_update_ne rm r.message.id id2
        (fun s => mergeEntry tw vw s r) hne

/-- Sample short-term entry for the C10 witness. -/
def sampleShortResult : SearchResult :=
  { message := sampleUserMsg "m1" "hello", score := 1/2, vectorScore := 0,
    textScore := 1/2, source := "short_term" }

/-- Sample long-term hit for the C10 witness. -/
def sampleLongResult : SearchResult :=
  { message := sampleUserMsg "m1" "hello", score := 7/10, vectorScore := 1,
    textScore := 0, source := "long_term" }

/-- Witness for C10 on a one-entry map and a long-term hit with a
higher vector score. -/
theorem claim_C10_merge_keeps_short_entry_witness :
    lookupId (mergeLong (3/10) (7/10) [("m1", sampleShortResult)]
        sampleLongResult) "m1"
      = some (mergeEntry (3/10) (7/10) sampleShortResult sampleLongResult)
    ∧ (mergeEntry (3/10) (7/10) sampleShortResult
        sampleLongResult).source = sampleShortResult.source :=
  ⟨((claim_C10_merge_keeps_short_entry).2 (3/10) (7/10)
      [("m1", sampleShortResult)] sampleShortResult sampleLongResult
      rfl).1,
   ((claim_C10_merge_keeps_short_entry).2 (3/10) (7/10)
      [("m1", sampleShortResult)] sampleShortResult sampleLongResult
      rfl).2.1⟩


/-- Counterexample to C7: with a positive engine-wide default minimum
score, a caller-supplied `MinScore` of 0 is NOT replaced before
filtering — the effective minimum score stays 0 (the code substitutes
the default only for negative values). -/
theorem claim_C7_counterexample :
    (effectiveOptions
        ({ VectorDB := some (), Embedder := some (),
           DefaultMinScore := 3/4 } : HybridMemoryConfig)
        ({ Limit := 10, MinScore := 0, VectorWeight := 1,
           TextWeight := 1 } : SearchOptions)).MinScore = 0
    ∧ ({ VectorDB := some (), Embedder := some (),
         DefaultMinScore := 3/4 } : HybridMemoryConfig).DefaultMinScore
        = 3/4
    ∧ ¬ ((0 : Rat) = 3/4) := by
  refine ⟨?_, rfl, by norm_num⟩
  rw [effectiveOptions_MinScore]
  norm_num

/-- C7 (amended): each option falls back to a default exactly as the
code has it — a non-positive `Limit` becomes 5, non-positive weights
become the engine-wide default weights (the pair then being
normalized), but `MinScore` falls back to the engine-wide default only
when negative: an explicit 0 is kept as 0. -/
theorem claim_C7_amended_option_defaults :
    ∀ (cfg : HybridMemoryConfig) (options : SearchOptions),
      (effectiveOptions cfg options).Limit
          = (if options.Limit ≤ 0 then 5 else options.Limit)
      ∧ (effectiveOptions cfg options).MinScore
          = (if options.MinScore < 0 then cfg.DefaultMinScore
             else options.MinScore)
      ∧ (resolveOptionDefaults cfg options).VectorWeight
          = (if options.VectorWeight ≤ 0 then cfg.DefaultVectorWeight
             else options.VectorWeight)
      ∧ (resolveOptionDefaults cfg options).TextWeight
          = (if options.TextWeight ≤ 0 then cfg.DefaultTextWeight
             else options.TextWeight)
      ∧ effectiveOptions cfg options
          = normalizeWeights (resolveOptionDefaults cfg options) :=
  fun cfg options =>
    ⟨effectiveOptions_Limit cfg options,
     effectiveOptions_MinScore cfg options,
     resolveOptionDefaults_VectorWeight cfg options,
     resolveOptionDefaults_TextWeight cfg options, rfl⟩

end AgentGo
